import Mathlib

/-!
Verification of the change-reconciliation, value-formatting, persistence-SQL
assembly, snapshot normalization and per-table error-handling logic of the
configuration-editor application (src/app.py), as a shallow embedding in Lean.

Conventions of the embedding:
  * a pandas scalar is a `Scalar` (null / bool / int64 / text / float, the
    float embedded by its decimal display value); pandas dtypes are carried
    as the strings the source compares against ("bool", "object",
    "int64", ...);
  * a row is an association list from column name to `Scalar`;
  * a DataFrame column is a `Col` (datetime / numeric / object); timestamps
    are measured in milliseconds since the epoch;
  * Python `str.join`, `str.replace("'", "''")` and `'.'`-to-`'_'` replacement
    are translated character-by-character, which is exactly their semantics
    for these single-character patterns.
-/

/-- The single-quote character, written by code point to keep SQL-escaping
definitions readable. -/
def quoteChar : Char := Char.ofNat 39

/-- A scalar cell value as held in a pandas DataFrame of this app: missing
(`None`/`NaN` — `pd.isnull`, which also covers float NaN), boolean, 64-bit
integer, text, or a finite floating-point cell.  A float cell is embedded by
its decimal display value `m * 10^(-e)`: Python's `repr`/`str` contract
guarantees the displayed decimal numeral denotes the cell uniquely among
doubles, so identifying the cell with that decimal is faithful for
everything the program does with it (render it and read it back).
Infinities and the scientific-notation formatting of extreme magnitudes are
outside the embedding. -/
inductive Scalar
  | null
  | b (x : Bool)
  | i (n : Int)
  | s (t : String)
  | f (m : Int) (e : Nat)
deriving DecidableEq

/-- `natLitAux fuel n` is the list of decimal digit characters of `n`
(most significant first), provided `n ≤ fuel`; structural recursion on the
fuel keeps the definition kernel-reducible. -/
def natLitAux : Nat → Nat → List Char
  | 0, _ => []
  | _ + 1, 0 => []
  | fuel + 1, n + 1 =>
      natLitAux fuel ((n + 1) / 10) ++ [Char.ofNat (48 + (n + 1) % 10)]

/-- Decimal rendering of a natural number, as Python `str` produces it. -/
def natLit (n : Nat) : String :=
  if n = 0 then "0" else String.mk (natLitAux n n)

/-- Decimal rendering of an integer, as Python `str` produces it:
a minus sign followed by the digits for negative numbers. -/
def intLit (n : Int) : String :=
  if n < 0 then "-" ++ natLit n.natAbs else natLit n.natAbs

/-- `fracDigitsAux w r` is the `w`-digit decimal rendering of `r` with
leading zeros kept — the fractional block of a positional float rendering. -/
def fracDigitsAux : Nat → Nat → List Char
  | 0, _ => []
  | w + 1, r => fracDigitsAux w (r / 10) ++ [Char.ofNat (48 + r % 10)]

/-- Python `str()` on a finite floating-point cell of display value
`m * 10^(-e)`: the sign, the integer part, a point, and the `e`-digit
fractional block (`.0` when `e = 0`, since Python always prints a
fractional part). -/
def pyStrFloat (m : Int) (e : Nat) : String :=
  (if m < 0 then "-" else "") ++ natLit (m.natAbs / 10 ^ e) ++ "." ++
    (if e = 0 then "0" else String.mk (fracDigitsAux e (m.natAbs % 10 ^ e)))

/-- Python `str()` on a scalar: `None`, `True`/`False`, decimal digits, the
text itself, or the positional decimal of a float cell. -/
def pyStr : Scalar → String
  | .null => "None"
  | .b true => "True"
  | .b false => "False"
  | .i n => intLit n
  | .s t => t
  | .f m e => pyStrFloat m e

/-- Python `str.upper()` as `format_value` uses it on `str(bool)` values:
ASCII lower-case letters are raised, character by character. -/
def pyUpper (s : String) : String :=
  String.mk (s.data.map (fun c =>
    if 97 ≤ c.toNat ∧ c.toNat ≤ 122 then Char.ofNat (c.toNat - 32) else c))

/-- `str(value).replace("'", "''")` from `format_value` (src/app.py:146,151):
every single quote is doubled, character by character, and no other character
is touched. -/
def escapeQuotes (t : String) : String :=
  String.mk (t.data.foldr
    (fun c acc => if c = quoteChar then quoteChar :: quoteChar :: acc else c :: acc) [])

/-- `format_value(value, dtype)` (src/app.py:140-152): `NULL` for missing
values, upper-cased `str` for dtype `bool`, a quoted escaped string for dtype
`object`, bare `str(value)` for dtypes `int64`/`float64`, and a quoted escaped
string for every other dtype. -/
def format_value (value : Scalar) (dtype : String) : String :=
  if value = Scalar.null then "NULL"
  else if dtype = "bool" then pyUpper (pyStr value)
  else if dtype = "object" then
    String.mk [quoteChar] ++ escapeQuotes (pyStr value) ++ String.mk [quoteChar]
  else if dtype = "int64" ∨ dtype = "float64" then pyStr value
  else String.mk [quoteChar] ++ escapeQuotes (pyStr value) ++ String.mk [quoteChar]

/-- Modelled from the spec: the store's type system is not part of src/, so
its reading of an unquoted decimal literal is modelled from §4.1/§8 of the
spec ("formatting then parsing ... back through the store's type system").
The numeral's value, accepted only when the text is a non-empty run of
decimal digits. -/
def parseNatLit (s : String) : Option Nat :=
  if !s.data.isEmpty && s.data.all Char.isDigit then
    some (s.data.foldl (fun a c => a * 10 + (c.toNat - 48)) 0)
  else none

/-- Modelled from the spec: the store's parsing of a possibly-signed decimal
integer literal (the store itself is external to src/). -/
def parseIntLit (s : String) : Option Int :=
  match s.data with
  | [] => none
  | c :: cs =>
      if c = Char.ofNat 45 then
        (parseNatLit (String.mk cs)).map (fun n => -(n : Int))
      else
        (parseNatLit (String.mk (c :: cs))).map (fun n => (n : Int))

/-- Modelled from the spec: the store's parsing of a boolean literal
(`TRUE`/`FALSE`), external to src/. -/
def parseBoolLit (s : String) : Option Bool :=
  if s = "TRUE" then some true else if s = "FALSE" then some false else none

/-- The rational number denoted by the decimal floating cell `m * 10^(-e)`. -/
def decValue (m : Int) (e : Nat) : Rat := (m : Rat) / 10 ^ e

/-- Split a character list at its first `'.'`: the part before and the part
after, `none` when there is no point. -/
def splitDot : List Char → Option (List Char × List Char)
  | [] => none
  | c :: cs =>
      if c = '.' then some ([], cs)
      else (splitDot cs).map (fun p => (c :: p.1, p.2))

/-- Modelled from the spec: the store (external to src/) reading an unsigned
positional decimal literal `digits.digits` at full precision — the integer
part plus the fractional part scaled by its length. -/
def parseUnsignedDecLit (s : String) : Option Rat :=
  match splitDot s.data with
  | none => none
  | some (ip, fp) =>
      if !ip.isEmpty && ip.all Char.isDigit && !fp.isEmpty && fp.all Char.isDigit then
        some (((ip.foldl (fun a c => a * 10 + (c.toNat - 48)) 0 : Nat) : Rat) +
          ((fp.foldl (fun a c => a * 10 + (c.toNat - 48)) 0 : Nat) : Rat) / 10 ^ fp.length)
      else none

/-- Modelled from the spec: the store reading a possibly-signed decimal
literal. -/
def parseDecLit (s : String) : Option Rat :=
  match s.data with
  | [] => none
  | c :: cs =>
      if c = Char.ofNat 45 then
        (parseUnsignedDecLit (String.mk cs)).map (fun q => -q)
      else
        parseUnsignedDecLit (String.mk (c :: cs))

/-- Specification-side statement of the escaping policy of §4.1: each single
quote becomes two single quotes, every other character stands unchanged, and
nothing else is inserted. -/
def escapeSpec (t : String) : String :=
  String.mk ((t.data.map
    (fun c => if c = quoteChar then [quoteChar, quoteChar] else [c])).flatten)

/-- A DataFrame column of the snapshot loader: a datetime64 column, a numeric
column, or an object (text) column.  Missing entries (`NaN`/`NaT`) are
`none`; timestamps are measured in milliseconds since the epoch. -/
inductive Col
  | datetime (vals : List (Option Int))
  | numeric (vals : List (Option Int))
  | object (vals : List String)
deriving DecidableEq

/-- `pd.api.types.is_datetime64_any_dtype` on a column of this model. -/
def isDatetimeCol : Col → Bool
  | .datetime _ => true
  | _ => false

/-- `pd.to_numeric(df[col], errors='coerce')` (src/app.py:75): a numeric
column is unchanged; text entries are read as integers where possible and
become missing (NaN) otherwise.  (The datetime case is unreachable here:
the caller applies this only under a not-datetime guard.) -/
def toNumericCoerce : Col → List (Option Int)
  | .numeric vs => vs
  | .object vs => vs.map (fun s => parseIntLit s)
  | .datetime vs => vs

/-- `df[col].max()` with pandas NaN-skipping semantics: the maximum of the
present values, `none` (NaN) when no value is present. -/
def colMax (vs : List (Option Int)) : Option Int :=
  match vs.filterMap id with
  | [] => none
  | a :: as => some (as.foldl max a)

/-- Lines 75-79 of src/app.py: coerce the column to numbers, pick one unit
from the column maximum (`'ms'` when `max_val >= 1e12`, else `'s'`; a NaN
maximum compares false, giving `'s'`), and convert the whole column with that
single unit.  A seconds-unit value `v` is the timestamp `v * 1000` ms. -/
def convertTimestampCol (c : Col) : Col :=
  let nums := toNumericCoerce c
  let msUnit :=
    match colMax nums with
    | some m => decide ((10 : Int) ^ 12 ≤ m)
    | none => false
  Col.datetime (if msUnit then nums else nums.map (Option.map (fun v => v * 1000)))

/-- `read_table` (src/app.py:66-81) after the fetch: every `CreatedAt` /
`UpdatedAt` column that is not already of a datetime dtype is normalized by
`convertTimestampCol`; every other column is returned as fetched. -/
def read_table (df : List (String × Col)) : List (String × Col) :=
  df.map (fun p =>
    if (p.1 = "CreatedAt" ∨ p.1 = "UpdatedAt") ∧ isDatetimeCol p.2 = false
    then (p.1, convertTimestampCol p.2) else p)

/-- Claim C6's per-value reading of the normalization rule: each value at or
above `10^12` taken as milliseconds, each smaller value as seconds. -/
def claimPerValueNormalize (vals : List (Option Int)) : List (Option Int) :=
  vals.map (Option.map (fun v => if (10 : Int) ^ 12 ≤ v then v else v * 1000))

/-- A row: an association list from column name to scalar value. -/
abbrev Row : Type := List (String × Scalar)

/-- `row[col]` on a row: the value at the first occurrence of the column. -/
def colValue (r : Row) (c : String) : Option Scalar :=
  (r.find? (fun p => p.1 == c)).map Prod.snd

/-- The primary-key tuple of a row, as `itertuples` over `df[primary_keys]`
produces it (src/app.py:192-193). -/
def pkTuple (primary_keys : List String) (r : Row) : List (Option Scalar) :=
  primary_keys.map (fun k => colValue r k)

/-- Lines 198-200 of src/app.py: every column outside the primary key is
cleared to `None`. -/
def nullOutNonKeys (primary_keys : List String) (r : Row) : Row :=
  r.map (fun p => if p.1 ∈ primary_keys then p else (p.1, Scalar.null))

/-- The change-set computation of the save handler (src/app.py:191-206):
`deleted_keys = original_keys - edited_keys`; the deletion rows are the
snapshot rows keyed in `deleted_keys` with their non-key fields nulled; the
result concatenates the edited rows tagged `is_delete = false` with the
deletion rows tagged `is_delete = true`. -/
def reconcile (snapshot edited_rows : List Row) (primary_keys : List String) :
    List (Row × Bool) :=
  let original_keys := snapshot.map (pkTuple primary_keys)
  let edited_keys := edited_rows.map (pkTuple primary_keys)
  let deleted_keys := original_keys.filter (fun k => decide (k ∉ edited_keys))
  let delete_rows :=
    (snapshot.filter (fun r => decide (pkTuple primary_keys r ∈ deleted_keys))).map
      (nullOutNonKeys primary_keys)
  edited_rows.map (fun r => (r, false)) ++ delete_rows.map (fun r => (r, true))

/-- The primary-key tuples of one partition of a change set (tag `false`:
upsert partition; tag `true`: delete partition). -/
def partitionKeys (changeSet : List (Row × Bool)) (primary_keys : List String)
    (tag : Bool) : List (List (Option Scalar)) :=
  (changeSet.filter (fun p => p.2 == tag)).map (fun p => pkTuple primary_keys p.1)

/-- Python `', '.join(...)` / `' AND '.join(...)`: the elements with the
separator between consecutive ones. -/
def joinSep (sep : String) : List String → String
  | [] => ""
  | [a] => a
  | a :: b :: rest => a ++ sep ++ joinSep sep (b :: rest)

/-- `columns_to_exclude` (src/app.py:91): the two system timestamp columns. -/
def columns_to_exclude : List String := ["CreatedAt", "UpdatedAt"]

/-- `on_clause` (src/app.py:110). -/
def on_clause (primary_keys : List String) : String :=
  joinSep " AND " (primary_keys.map (fun pk => "t." ++ pk ++ " = s." ++ pk))

/-- `source_columns` (src/app.py:111). -/
def source_columns (all_columns : List String) : List String :=
  all_columns.filter (fun col => decide (col ∉ columns_to_exclude))

/-- `update_set` (src/app.py:112-115): assignments for every source column
outside the primary key, then `t.UpdatedAt = CURRENT_TIMESTAMP()` (with the
joining comma only when the former part is non-empty). -/
def update_set (all_columns primary_keys : List String) : String :=
  let base := joinSep ", "
    (((source_columns all_columns).filter (fun col => decide (col ∉ primary_keys))).map
      (fun col => "t." ++ col ++ " = s." ++ col))
  (if base = "" then base else base ++ ", ") ++ "t.UpdatedAt = CURRENT_TIMESTAMP()"

/-- `insert_columns` (src/app.py:116). -/
def insert_columns (all_columns : List String) : String :=
  joinSep ", " all_columns

/-- `insert_values` (src/app.py:117-121): `CURRENT_TIMESTAMP()` for the two
system timestamp columns, `s.`-references for every other column. -/
def insert_values (all_columns : List String) : String :=
  joinSep ", " (all_columns.map
    (fun col => if col ∈ columns_to_exclude then "CURRENT_TIMESTAMP()" else "s." ++ col))

/-- `merge_sql` (src/app.py:124-131), with the f-string's exact layout (the
grouping of the constant text into `++`-chunks is immaterial to the string's
value). -/
def merge_sql (table_name temp_view : String)
    (primary_keys all_columns : List String) : String :=
  "\n        MERGE INTO " ++ table_name ++ " AS t\n        USING " ++ temp_view ++
    " AS s\n        ON " ++ on_clause primary_keys ++
    "\n        " ++ "WHEN MATCHED AND s.is_delete = TRUE THEN DELETE" ++
    "\n        " ++ "WHEN MATCHED AND s.is_delete = FALSE THEN UPDATE SET " ++
    update_set all_columns primary_keys ++
    "\n        " ++ "WHEN NOT MATCHED AND s.is_delete = FALSE THEN INSERT (" ++
    insert_columns all_columns ++ ") VALUES (" ++ insert_values all_columns ++
    ")" ++ "\n        "

/-- Python `table_name.replace('.', '_')`, character by character. -/
def dotToUnderscore (s : String) : String :=
  String.mk (s.data.map (fun c => if c = '.' then '_' else c))

/-- `temp_view` (src/app.py:93): `temp_` + the table name with dots replaced
by underscores + `_` + `int(time.time())`. -/
def temp_view_name (table_name : String) (now : Int) : String :=
  "temp_" ++ dotToUnderscore table_name ++ "_" ++ intLit now

/-- `create_view_sql` (src/app.py:100-105), with the f-string's layout. -/
def create_view_sql (temp_view values_clause columns : String) : String :=
  "\n        CREATE TEMPORARY VIEW " ++ temp_view ++
    " AS\n        SELECT * FROM (\n            VALUES " ++ values_clause ++
    "\n        ) AS t (" ++ columns ++ ")\n        "

/-- A statement executed during a save. -/
inductive SqlStmt
  | createView (sql : String)
  | mergeInto (sql : String)
deriving DecidableEq

def isMergeStmt : SqlStmt → Bool
  | .mergeInto _ => true
  | _ => false

/-- The statements `save_changes` executes, in order (src/app.py:100-134):
one temporary-view creation, then one merge. -/
def save_statements (table_name : String) (now : Int) (values_clause columns : String)
    (primary_keys all_columns : List String) : List SqlStmt :=
  [SqlStmt.createView
     (create_view_sql (temp_view_name table_name now) values_clause columns),
   SqlStmt.mergeInto
     (merge_sql table_name (temp_view_name table_name now) primary_keys all_columns)]

/-- A value source in a merge action: a column of the merge source `s`, or
the current server time. -/
inductive SourceExpr
  | fromSource (col : String)
  | currentTime
deriving DecidableEq

/-- One branch of a conditional merge, as §4.5 of the spec describes them. -/
inductive MergeBranch
  | matchedDelete
  | matchedUpdate (assignments : List (String × SourceExpr))
  | notMatchedInsert (cols : List String) (vals : List SourceExpr)
  | notMatchedDelete
deriving DecidableEq

/-- Modelled from the spec (§4.5 steps 3-6): the branches the persister must
issue — delete on matched `is_delete`; on matched non-delete an update of
every non-primary-key, non-system-timestamp column plus `UpdatedAt` from the
current server time; on unmatched non-delete an insert of all columns with
the current server time for both timestamps; and no branch at all for the
unmatched-delete case. -/
def specMergeBranches (primary_keys all_columns : List String) : List MergeBranch :=
  [MergeBranch.matchedDelete,
   MergeBranch.matchedUpdate
     ((all_columns.filter
         (fun c => decide (c ∉ primary_keys ∧ c ∉ columns_to_exclude))).map
        (fun c => (c, SourceExpr.fromSource c)) ++
      [("UpdatedAt", SourceExpr.currentTime)]),
   MergeBranch.notMatchedInsert all_columns
     (all_columns.map (fun c =>
        if c ∈ columns_to_exclude then SourceExpr.currentTime
        else SourceExpr.fromSource c))]

def renderSourceExpr : SourceExpr → String
  | .fromSource c => "s." ++ c
  | .currentTime => "CURRENT_TIMESTAMP()"

def renderAssignment : String × SourceExpr → String
  | (col, SourceExpr.fromSource c) => "t." ++ col ++ " = s." ++ c
  | (col, SourceExpr.currentTime) => "t." ++ col ++ " = CURRENT_TIMESTAMP()"

/-- The textual form of one merge branch in the store's SQL dialect. -/
def renderBranch : MergeBranch → String
  | .matchedDelete => "WHEN MATCHED AND s.is_delete = TRUE THEN DELETE"
  | .matchedUpdate assignments =>
      "WHEN MATCHED AND s.is_delete = FALSE THEN UPDATE SET " ++
        joinSep ", " (assignments.map renderAssignment)
  | .notMatchedInsert cols vals =>
      "WHEN NOT MATCHED AND s.is_delete = FALSE THEN INSERT (" ++
        joinSep ", " cols ++ ") VALUES (" ++
        joinSep ", " (vals.map renderSourceExpr) ++ ")"
  | .notMatchedDelete => "WHEN NOT MATCHED AND s.is_delete = TRUE THEN DELETE"

/-- A whole conditional-merge statement, rendered from a header (target
table, source, match condition) and a list of branches, in the layout the
persister uses. -/
def renderMergeStatement (table_name source on_str : String)
    (branches : List MergeBranch) : String :=
  "\n        MERGE INTO " ++ table_name ++ " AS t\n        USING " ++ source ++
    " AS s\n        ON " ++ on_str ++
    String.join (branches.map (fun br => "\n        " ++ renderBranch br)) ++
    "\n        "

/-- The per-table render outcome of the main loop (src/app.py:242-255). -/
inductive TableRender
  | editable (primary_keys : List String) (df : List (String × Col))
  | pkMissing (msg : String)
  | loadFailed (msg : String)
deriving DecidableEq

/-- `get_primary_key` (src/app.py:47-63) applied to the rows the constraint
query returns (each row modelled by its `column_name` value): the listed
columns when any constraint row exists, and the empty list — not an error —
otherwise. -/
def get_primary_key (constraint_rows : List String) : List String :=
  if !constraint_rows.isEmpty then constraint_rows else []

/-- One iteration of the main loop (src/app.py:243-255): an empty primary
key disables editing for the table; a load failure is reported inline for
the table; otherwise the table renders editable on its normalized
snapshot. -/
def render_table (constraint_rows : List String)
    (load : Except String (List (String × Col))) (tname : String) : TableRender :=
  let primary_keys := get_primary_key constraint_rows
  if primary_keys.isEmpty then
    .pkMissing ("No primary key found for table " ++ tname ++ ". Editing is disabled.")
  else
    match load with
    | .ok df => .editable primary_keys (read_table df)
    | .error e => .loadFailed ("Error loading table " ++ tname ++ ": " ++ e)

/-- The main loop over the catalog's tables (src/app.py:227-255): each table
is rendered from its own metadata and its own load result. -/
def main_render (tables : List String) (constraintsOf : String → List String)
    (loadOf : String → Except String (List (String × Col))) : List TableRender :=
  tables.map (fun t => render_table (constraintsOf t) (loadOf t) t)

/-- The per-table session state the save handler touches: the table's data
(`st.session_state[data_key]`) and the unsaved-changes flag
(`st.session_state[changes_key]`). -/
structure TableSession where
  dataDf : List Row
  changesFlag : Bool
deriving DecidableEq

/-- A user-visible notification. -/
inductive UiMsg
  | errorMsg (text : String)
  | toastMsg (text : String)
deriving DecidableEq

/-- The messages `save_changes` (src/app.py:84-137) emits: a missing primary
key or a failed statement is reported with `st.error` — the exception is
caught inside `save_changes`, which then returns normally — and a successful
merge emits the success toast. -/
def save_changes_messages (table_name : String) (primary_keys : List String)
    (mergeOutcome : Except String Unit) : List UiMsg :=
  if primary_keys.isEmpty then
    [UiMsg.errorMsg ("No primary key defined for table " ++ table_name ++
      ". Cannot perform upsert or delete.")]
  else
    match mergeOutcome with
    | .ok _ => [UiMsg.toastMsg "Changes saved successfully!"]
    | .error e => [UiMsg.errorMsg ("Error saving changes: " ++ e)]

/-- The save-button handler (src/app.py:189-216): it computes the change set,
invokes `save_changes` (whose failures are swallowed inside that function),
and then unconditionally clears the table's unsaved-changes flag; the
table's data entry in session state is not written on this path. -/
def handle_save (table_name : String) (sess : TableSession) (edited_df : List Row)
    (primary_keys : List String) (mergeOutcome : Except String Unit) :
    TableSession × List UiMsg :=
  let _source_df := reconcile sess.dataDf edited_df primary_keys
  let msgs := save_changes_messages table_name primary_keys mergeOutcome
  (TableSession.mk sess.dataDf false, msgs)

theorem natLitAux_all_digits (fuel n : Nat) :
    ∀ c ∈ natLitAux fuel n, c.isDigit = true := by
  induction fuel generalizing n with
  | zero => intro c hc; simp [natLitAux] at hc
  | succ fuel ih =>
      intro c hc
      match n with
      | 0 => simp [natLitAux] at hc
      | m + 1 =>
          simp only [natLitAux, List.mem_append, List.mem_singleton] at hc
          rcases hc with hc | hc
          · exact ih _ c hc
          · subst hc
            have h10 : (m + 1) % 10 < 10 := Nat.mod_lt _ (by omega)
            interval_cases h : (m + 1) % 10 <;> decide

theorem natLitAux_ne_nil (fuel n : Nat) (hn : 0 < n) (hfuel : n ≤ fuel) :
    natLitAux fuel n ≠ [] := by
  obtain ⟨f, rfl⟩ : ∃ f, fuel = f + 1 := ⟨fuel - 1, by omega⟩
  obtain ⟨m, rfl⟩ : ∃ m, n = m + 1 := ⟨n - 1, by omega⟩
  simp [natLitAux]

theorem foldl_digits_append (l : List Char) (c : Char) (a : Nat) :
    (l ++ [c]).foldl (fun a c => a * 10 + (c.toNat - 48)) a =
      l.foldl (fun a c => a * 10 + (c.toNat - 48)) a * 10 + (c.toNat - 48) := by
  simp [List.foldl_append]

theorem natLitAux_foldl (fuel n : Nat) (hfuel : n ≤ fuel) :
    (natLitAux fuel n).foldl (fun a c => a * 10 + (c.toNat - 48)) 0 = n := by
  induction fuel generalizing n with
  | zero =>
      have : n = 0 := by omega
      subst this; simp [natLitAux]
  | succ fuel ih =>
      match n with
      | 0 => simp [natLitAux]
      | m + 1 =>
          have hdiv : (m + 1) / 10 ≤ fuel := by
            have := Nat.div_lt_self (by omega : 0 < m + 1) (by omega : 1 < 10)
            omega
          have hrec := ih ((m + 1) / 10) hdiv
          have hm : (m + 1) % 10 < 10 := Nat.mod_lt _ (by omega)
          have hchar : (Char.ofNat (48 + (m + 1) % 10)).toNat - 48 = (m + 1) % 10 := by
            interval_cases h : (m + 1) % 10 <;> decide
          calc (natLitAux (fuel + 1) (m + 1)).foldl (fun a c => a * 10 + (c.toNat - 48)) 0
              = (natLitAux fuel ((m + 1) / 10) ++ [Char.ofNat (48 + (m + 1) % 10)]).foldl
                  (fun a c => a * 10 + (c.toNat - 48)) 0 := by rw [natLitAux]
            _ = ((m + 1) / 10) * 10 + ((Char.ofNat (48 + (m + 1) % 10)).toNat - 48) := by
                  rw [foldl_digits_append, hrec]
            _ = m + 1 := by rw [hchar]; omega

theorem parseNatLit_natLit (n : Nat) : parseNatLit (natLit n) = some n := by
  by_cases h : n = 0
  · subst h; decide
  · have hpos : 0 < n := Nat.pos_of_ne_zero h
    have hne := natLitAux_ne_nil n n hpos (le_refl n)
    have hdig := natLitAux_all_digits n n
    have hfold := natLitAux_foldl n n (le_refl n)
    simp only [natLit, if_neg h, parseNatLit]
    have hempty : (String.mk (natLitAux n n)).data.isEmpty = false := by
      simp [String.data]
      cases hx : natLitAux n n with
      | nil => exact absurd hx hne
      | cons a l => simp [List.isEmpty]
    have hall : (String.mk (natLitAux n n)).data.all Char.isDigit = true := by
      simp only [String.data, List.all_eq_true]
      exact hdig
    rw [hempty, hall]
    simp [hfold]

theorem natLit_data_spec (m : Nat) :
    (natLit m).data ≠ [] ∧ ∀ c ∈ (natLit m).data, c.isDigit = true := by
  by_cases h : m = 0
  · subst h; exact ⟨by decide, by decide⟩
  · have hpos : 0 < m := Nat.pos_of_ne_zero h
    constructor
    · simpa [natLit, if_neg h] using natLitAux_ne_nil m m hpos (le_refl m)
    · intro c hc
      simp only [natLit, if_neg h] at hc
      exact natLitAux_all_digits m m c hc

theorem isDigit_ne_minus {c : Char} (hc : c.isDigit = true) : c ≠ Char.ofNat 45 := by
  intro h; subst h; simp [Char.isDigit] at hc

theorem parseIntLit_of_digits (s : String) (hne : s.data ≠ [])
    (hd : ∀ c ∈ s.data, c.isDigit = true) :
    parseIntLit s = (parseNatLit s).map (fun n => (n : Int)) := by
  rcases s with ⟨data⟩
  match hx : data with
  | [] => exact absurd rfl hne
  | c :: cs =>
      have hcd : c.isDigit = true := hd c (by simp)
      simp only [parseIntLit, if_neg (isDigit_ne_minus hcd)]

theorem parseIntLit_intLit (n : Int) : parseIntLit (intLit n) = some n := by
  by_cases h : n < 0
  · have hdata : (intLit n).data = Char.ofNat 45 :: (natLit n.natAbs).data := by
      simp [intLit, if_pos h, String.data_append]
    rcases hmk : intLit n with ⟨data⟩
    have hdata2 : data = Char.ofNat 45 :: (natLit n.natAbs).data := by
      rw [← hdata, hmk]
    simp only [parseIntLit, hdata2, if_pos rfl]
    have : String.mk (natLit n.natAbs).data = natLit n.natAbs := by
      rcases natLit n.natAbs with ⟨d⟩; rfl
    rw [this, parseNatLit_natLit]
    show some (-((n.natAbs : Int))) = some n
    congr 1
    omega
  · have heq : intLit n = natLit n.natAbs := by simp [intLit, if_neg h]
    rw [heq, parseIntLit_of_digits _ (natLit_data_spec n.natAbs).1 (natLit_data_spec n.natAbs).2,
      parseNatLit_natLit]
    show some ((n.natAbs : Int)) = some n
    congr 1
    omega

theorem escapeQuotes_eq_escapeSpec (t : String) : escapeQuotes t = escapeSpec t := by
  unfold escapeQuotes escapeSpec
  congr 1
  induction t.data with
  | nil => rfl
  | cons c cs ih =>
      by_cases hc : c = quoteChar <;> simp [hc, ih]

theorem escapeQuotes_eq_self_of_no_quote (t : String)
    (h : ∀ c ∈ t.data, c ≠ quoteChar) : escapeQuotes t = t := by
  rcases t with ⟨data⟩
  unfold escapeQuotes
  congr 1
  induction data with
  | nil => rfl
  | cons c cs ih =>
      simp only [List.mem_cons, ne_eq, forall_eq_or_imp] at h
      simp [if_neg h.1, ih h.2]

theorem isDigit_ne_quote {c : Char} (hc : c.isDigit = true) : c ≠ quoteChar := by
  intro h
  subst h
  exact absurd hc (by decide)

theorem intLit_head_ne_quote (n : Int) : (intLit n).data.head? ≠ some quoteChar := by
  by_cases h : n < 0
  · have hdata : (intLit n).data = Char.ofNat 45 :: (natLit n.natAbs).data := by
      simp [intLit, if_pos h, String.data_append]
    rw [hdata]
    intro hcontra
    simp only [List.head?, Option.some_inj] at hcontra
    exact absurd hcontra (by decide)
  · rw [intLit, if_neg h]
    rcases natLit_data_spec n.natAbs with ⟨hne, hdig⟩
    cases hx : (natLit n.natAbs).data with
    | nil => exact absurd hx hne
    | cons c cs =>
        have hcd : c.isDigit = true := hdig c (by rw [hx]; simp)
        intro hcontra
        simp only [List.head?, Option.some_inj] at hcontra
        exact isDigit_ne_quote hcd hcontra

theorem intLit_no_quote (n : Int) : ∀ c ∈ (intLit n).data, c ≠ quoteChar := by
  intro c hc
  by_cases h : n < 0
  · have hdata : (intLit n).data = Char.ofNat 45 :: (natLit n.natAbs).data := by
      simp [intLit, if_pos h, String.data_append]
    rw [hdata] at hc
    rcases List.mem_cons.mp hc with h45 | hmem
    · subst h45; decide
    · exact isDigit_ne_quote ((natLit_data_spec n.natAbs).2 c hmem)
  · rw [intLit, if_neg h] at hc
    exact isDigit_ne_quote ((natLit_data_spec n.natAbs).2 c hc)

/-- C5 counterexample: the claim promises the canonical decimal textual
form, unquoted, for a numeric declared type of any width; but for the
integer value 5 under the (realistic) pandas dtype `int32` the formatter
falls through to the string branch and produces the quoted literal `'5'`,
not `5`. -/
theorem C5_counterexample_int32_quoted :
    format_value (Scalar.i 5) "int32" = "\x275\x27" ∧
    format_value (Scalar.i 5) "int32" ≠ "5" := by decide


theorem colValue_nullOutNonKeys (primary_keys : List String) (k : String)
    (hk : k ∈ primary_keys) (r : Row) :
    colValue (nullOutNonKeys primary_keys r) k = colValue r k := by
  induction r with
  | nil => rfl
  | cons p rest ih =>
      rcases p with ⟨c, v⟩
      by_cases hc : c = k
      · subst hc
        simp [nullOutNonKeys, colValue, List.find?, hk]
      · have hbeq : (c == k) = false := by simp [hc]
        by_cases hcpk : c ∈ primary_keys <;>
          simpa [nullOutNonKeys, colValue, List.find?, hcpk, hbeq] using ih

theorem pkTuple_nullOutNonKeys (primary_keys : List String) (r : Row) :
    pkTuple primary_keys (nullOutNonKeys primary_keys r) = pkTuple primary_keys r := by
  unfold pkTuple
  exact List.map_congr_left (fun k hk => colValue_nullOutNonKeys primary_keys k hk r)

theorem mem_partitionKeys_reconcile_false (snapshot edited_rows : List Row)
    (primary_keys : List String) (k : List (Option Scalar)) :
    k ∈ partitionKeys (reconcile snapshot edited_rows primary_keys) primary_keys false ↔
      k ∈ edited_rows.map (pkTuple primary_keys) := by
  simp [partitionKeys, reconcile, List.mem_filter, pkTuple_nullOutNonKeys]

theorem mem_partitionKeys_reconcile_true (snapshot edited_rows : List Row)
    (primary_keys : List String) (k : List (Option Scalar)) :
    k ∈ partitionKeys (reconcile snapshot edited_rows primary_keys) primary_keys true ↔
      ∃ r0, r0 ∈ snapshot ∧
        pkTuple primary_keys r0 ∉ edited_rows.map (pkTuple primary_keys) ∧
        pkTuple primary_keys r0 = k := by
  simp only [partitionKeys, reconcile, List.mem_filter, pkTuple_nullOutNonKeys]
  simp [List.mem_filter, pkTuple_nullOutNonKeys]
  constructor
  · rintro ⟨a, ⟨ha, _, hall⟩, hk⟩
    exact ⟨a, ha, hall, hk⟩
  · rintro ⟨r0, hr0, hall, hk⟩
    exact ⟨r0, ⟨hr0, ⟨r0, hr0, rfl⟩, hall⟩, hk⟩

/-- C1: on save, the delete partition of the change set consists of exactly
the snapshot rows whose primary-key tuple lies in `snapshotKeys` minus
`editedKeys`, each with every non-primary-key field cleared to null and
tagged `is_delete = true`; on the spec's end-to-end example (snapshot rows
id 1/'A' and 2/'B', edited rows id 1/'A2' and 3/'C', primary key `id`) the
change set is the two edited rows tagged false followed by exactly the
nulled row with id 2 tagged true. -/
theorem C1_delete_partition_exact :
    (∀ (snapshot edited_rows : List Row) (primary_keys : List String) (r : Row),
        (r, true) ∈ reconcile snapshot edited_rows primary_keys ↔
          ∃ r0, r0 ∈ snapshot ∧
            pkTuple primary_keys r0 ∈ snapshot.map (pkTuple primary_keys) ∧
            pkTuple primary_keys r0 ∉ edited_rows.map (pkTuple primary_keys) ∧
            r = nullOutNonKeys primary_keys r0) ∧
    reconcile
        [[("id", Scalar.i 1), ("name", Scalar.s "A")],
         [("id", Scalar.i 2), ("name", Scalar.s "B")]]
        [[("id", Scalar.i 1), ("name", Scalar.s "A2")],
         [("id", Scalar.i 3), ("name", Scalar.s "C")]]
        ["id"] =
      [([("id", Scalar.i 1), ("name", Scalar.s "A2")], false),
       ([("id", Scalar.i 3), ("name", Scalar.s "C")], false),
       ([("id", Scalar.i 2), ("name", Scalar.null)], true)] := by
  constructor
  · intro snapshot edited_rows primary_keys r
    simp [reconcile, List.mem_filter]
    constructor
    · rintro ⟨a, ⟨ha, hsk, hek⟩, hre⟩
      exact ⟨a, ha, hsk, hek, hre.symm⟩
    · rintro ⟨r0, hr0, hsk, hek, hre⟩
      exact ⟨r0, ⟨hr0, hsk, hek⟩, hre.symm⟩
  · decide

/-- C2: for every snapshot, edited set and primary-key column set, the keys
of the upsert partition together with the keys of the delete partition of
the reconciled change set are exactly `keys(S) ∪ keys(E)`, and no
primary-key tuple lies in both partitions. -/
theorem C2_partitions_cover_keys :
    ∀ (snapshot edited_rows : List Row) (primary_keys : List String)
      (k : List (Option Scalar)),
      ((k ∈ partitionKeys (reconcile snapshot edited_rows primary_keys) primary_keys false ∨
        k ∈ partitionKeys (reconcile snapshot edited_rows primary_keys) primary_keys true) ↔
        (k ∈ snapshot.map (pkTuple primary_keys) ∨
         k ∈ edited_rows.map (pkTuple primary_keys))) ∧
      ¬(k ∈ partitionKeys (reconcile snapshot edited_rows primary_keys) primary_keys false ∧
        k ∈ partitionKeys (reconcile snapshot edited_rows primary_keys) primary_keys true) := by
  intro snapshot edited_rows primary_keys k
  rw [mem_partitionKeys_reconcile_false, mem_partitionKeys_reconcile_true]
  constructor
  · constructor
    · rintro (hk | ⟨r0, hr0, hne, rfl⟩)
      · exact Or.inr hk
      · exact Or.inl (List.mem_map.mpr ⟨r0, hr0, rfl⟩)
    · rintro (hks | hke)
      · by_cases hke : k ∈ edited_rows.map (pkTuple primary_keys)
        · exact Or.inl hke
        · rcases List.mem_map.mp hks with ⟨r0, hr0, rfl⟩
          exact Or.inr ⟨r0, hr0, hke, rfl⟩
      · exact Or.inl hke
  · rintro ⟨hke, ⟨r0, hr0, hne, rfl⟩⟩
    exact hne hke

theorem le_foldl_max (l : List Int) (a : Int) : a ≤ l.foldl max a := by
  induction l generalizing a with
  | nil => exact le_refl a
  | cons b t ih => exact le_trans (le_max_left a b) (ih (max a b))

theorem mem_le_foldl_max (l : List Int) (a : Int) : ∀ x ∈ l, x ≤ l.foldl max a := by
  induction l generalizing a with
  | nil => intro x hx; simp at hx
  | cons b t ih =>
      intro x hx
      rcases List.mem_cons.mp hx with rfl | hx
      · exact le_trans (le_max_right a x) (le_foldl_max t (max a x))
      · exact ih (max a b) x hx

theorem foldl_max_mem (l : List Int) (a : Int) : l.foldl max a = a ∨ l.foldl max a ∈ l := by
  induction l generalizing a with
  | nil => exact Or.inl rfl
  | cons b t ih =>
      rcases ih (max a b) with h | h
      · rcases max_choice a b with hm | hm
        · exact Or.inl (by rw [List.foldl_cons, h, hm])
        · exact Or.inr (by rw [List.foldl_cons, h, hm]; exact List.mem_cons_self b t)
      · exact Or.inr (List.mem_cons_of_mem b h)

theorem colMax_spec (vs : List (Option Int)) (m : Int) (h : colMax vs = some m) :
    m ∈ vs.filterMap id ∧ ∀ x ∈ vs.filterMap id, x ≤ m := by
  unfold colMax at h
  cases hx : vs.filterMap id with
  | nil => rw [hx] at h; exact absurd h (by simp)
  | cons a as =>
      rw [hx] at h
      have hm : as.foldl max a = m := by injection h
      constructor
      · rcases foldl_max_mem as a with h2 | h2
        · rw [← hm, h2]; exact List.mem_cons_self a as
        · rw [← hm]; exact List.mem_cons_of_mem a h2
      · intro x hx2
        rcases List.mem_cons.mp hx2 with rfl | hx2
        · rw [← hm]; exact le_foldl_max as x
        · rw [← hm]; exact mem_le_foldl_max as a x hx2

theorem colMax_isSome_of_ne_nil (vs : List (Option Int))
    (h : vs.filterMap id ≠ []) : ∃ m, colMax vs = some m := by
  unfold colMax
  cases hx : vs.filterMap id with
  | nil => exact absurd hx h
  | cons a as => exact ⟨as.foldl max a, rfl⟩

/-- C6 counterexample: the claim reads the unit per value, but the code picks
one unit per column from the column maximum; for the column holding both
1700000000 (seconds-scale) and 1700000000000 (millisecond-scale) the loader
converts the whole column as milliseconds, so the smaller value is not read
as seconds as the claim demands. -/
theorem C6_counterexample_per_column_unit :
    read_table [("CreatedAt", Col.numeric [some 1700000000, some 1700000000000])] ≠
      [("CreatedAt", Col.datetime
        (claimPerValueNormalize [some 1700000000, some 1700000000000]))] := by
  decide

/-- C6 (amended): the unit is chosen once per column from the column
maximum — if any present value reaches `10^12` the whole column is read as
milliseconds, and if all present values are below `10^12` the whole column
is read as seconds; in particular a column whose only value is the epoch
integer 1700000000 and one whose only value is 1700000000000 both normalize
to the same calendar timestamp. -/
theorem C6_epoch_unit_per_column :
    (∀ vals : List (Option Int),
        (∃ x ∈ vals.filterMap id, (10 : Int) ^ 12 ≤ x) →
        convertTimestampCol (Col.numeric vals) = Col.datetime vals) ∧
    (∀ vals : List (Option Int),
        (∀ x ∈ vals.filterMap id, x < (10 : Int) ^ 12) →
        convertTimestampCol (Col.numeric vals) =
          Col.datetime (vals.map (Option.map (fun v => v * 1000)))) ∧
    convertTimestampCol (Col.numeric [some 1700000000]) =
      convertTimestampCol (Col.numeric [some 1700000000000]) := by
  refine ⟨?_, ?_, by decide⟩
  · rintro vals ⟨x, hx, hge⟩
    have hne : vals.filterMap id ≠ [] := by
      intro h; rw [h] at hx; simp at hx
    obtain ⟨m, hm⟩ := colMax_isSome_of_ne_nil vals hne
    have hle : (10 : Int) ^ 12 ≤ m := le_trans hge ((colMax_spec vals m hm).2 x hx)
    have hle2 : (1000000000000 : Int) ≤ m := by norm_num at hle; exact hle
    simp [convertTimestampCol, toNumericCoerce, hm, hle2]
  · intro vals hall
    cases hm : colMax vals with
    | none => simp [convertTimestampCol, toNumericCoerce, hm]
    | some m =>
        have hlt : ¬(10 : Int) ^ 12 ≤ m := not_le.mpr (hall m (colMax_spec vals m hm).1)
        have hlt2 : m < (1000000000000 : Int) := by norm_num at hlt; exact hlt
        simp [convertTimestampCol, toNumericCoerce, hm, hlt2, not_le.mpr hlt2]

/-- C6 witness: the amended rule applied to the two singleton example
columns — the millisecond-scale one is kept as is, the seconds-scale one is
scaled by 1000, and both land on the same calendar timestamp. -/
theorem C6_epoch_unit_per_column_witness :
    convertTimestampCol (Col.numeric [some 1700000000000]) =
        Col.datetime [some 1700000000000] ∧
    convertTimestampCol (Col.numeric [some 1700000000]) =
        Col.datetime [some 1700000000000] := by
  constructor
  · exact C6_epoch_unit_per_column.1 [some 1700000000000]
      ⟨1700000000000, by decide, by decide⟩
  · exact (C6_epoch_unit_per_column.2.1 [some 1700000000] (by decide)).trans (by decide)

/-- C10: the snapshot loader touches only non-datetime `CreatedAt` /
`UpdatedAt` columns — every column under any other name, and every
`CreatedAt`/`UpdatedAt` column already of a datetime dtype, comes back
exactly as the store returned it, in place. -/
theorem C10_read_table_frame :
    ∀ (df : List (String × Col)) (i : Nat) (nm : String) (c : Col),
      df[i]? = some (nm, c) →
      ((nm ≠ "CreatedAt" ∧ nm ≠ "UpdatedAt") → (read_table df)[i]? = some (nm, c)) ∧
      (isDatetimeCol c = true → (read_table df)[i]? = some (nm, c)) := by
  intro df i nm c hdf
  have hmap : (read_table df)[i]? =
      Option.map (fun p : String × Col =>
        if (p.1 = "CreatedAt" ∨ p.1 = "UpdatedAt") ∧ isDatetimeCol p.2 = false
        then (p.1, convertTimestampCol p.2) else p) df[i]? := by
    unfold read_table
    exact List.getElem?_map _ df i
  constructor
  · rintro ⟨h1, h2⟩
    rw [hmap, hdf]
    simp [h1, h2]
  · intro hdt
    rw [hmap, hdf]
    simp [hdt]

/-- C10 witness: on a two-column frame, an ordinary column and a
datetime-typed `CreatedAt` column both pass through the loader unchanged. -/
theorem C10_read_table_frame_witness :
    (read_table [("x", Col.object ["a"]), ("CreatedAt", Col.datetime [some 0])])[0]? =
        some ("x", Col.object ["a"]) ∧
    (read_table [("x", Col.object ["a"]), ("CreatedAt", Col.datetime [some 0])])[1]? =
        some ("CreatedAt", Col.datetime [some 0]) :=
  ⟨(C10_read_table_frame _ 0 "x" (Col.object ["a"]) (by decide)).1 (by decide),
   (C10_read_table_frame _ 1 "CreatedAt" (Col.datetime [some 0]) (by decide)).2 (by decide)⟩

theorem string_empty_append (s : String) : "" ++ s = s := rfl

theorem joinSep_append_singleton (sep x : String) (l : List String) :
    joinSep sep (l ++ [x]) = if l = [] then x else joinSep sep l ++ sep ++ x := by
  induction l with
  | nil => simp [joinSep]
  | cons a t ih =>
      cases t with
      | nil => simp [joinSep]
      | cons b t2 =>
          simp only [List.cons_append, joinSep, List.append_eq] at *
          rw [ih]
          simp [String.append_assoc]

theorem joinSep_head_length (sep a : String) (l : List String) :
    a.length ≤ (joinSep sep (a :: l)).length := by
  cases l with
  | nil => simp [joinSep]
  | cons b t =>
      simp [joinSep, String.length_append]
      omega

theorem joinSep_ne_empty (sep a : String) (l : List String) (ha : a.length ≠ 0) :
    joinSep sep (a :: l) ≠ "" := by
  intro h
  have hle := joinSep_head_length sep a l
  rw [h] at hle
  have h0 : ("" : String).length = 0 := rfl
  omega

theorem update_set_renders (all_columns primary_keys : List String) :
    update_set all_columns primary_keys =
      joinSep ", "
        (((all_columns.filter
            (fun c => decide (c ∉ primary_keys ∧ c ∉ columns_to_exclude))).map
            (fun c => (c, SourceExpr.fromSource c)) ++
          [("UpdatedAt", SourceExpr.currentTime)]).map renderAssignment) := by
  have hfold : renderAssignment ("UpdatedAt", SourceExpr.currentTime) =
      "t.UpdatedAt = CURRENT_TIMESTAMP()" := by decide
  have hfilter : (source_columns all_columns).filter
        (fun col => decide (col ∉ primary_keys)) =
      all_columns.filter
        (fun c => decide (c ∉ primary_keys ∧ c ∉ columns_to_exclude)) := by
    unfold source_columns
    rw [List.filter_filter]
    apply List.filter_congr
    intro c _
    rw [Bool.decide_and]
  rw [List.map_append, List.map_map]
  have hmapped : List.map (renderAssignment ∘ fun c => (c, SourceExpr.fromSource c))
      (all_columns.filter (fun c => decide (c ∉ primary_keys ∧ c ∉ columns_to_exclude))) =
      (all_columns.filter
        (fun c => decide (c ∉ primary_keys ∧ c ∉ columns_to_exclude))).map
        (fun col => "t." ++ col ++ " = s." ++ col) := by
    apply List.map_congr_left
    intro c _
    rfl
  rw [hmapped]
  simp only [List.map_cons, List.map_nil, hfold]
  simp only [update_set]
  rw [hfilter]
  cases hF : all_columns.filter
      (fun c => decide (c ∉ primary_keys ∧ c ∉ columns_to_exclude)) with
  | nil => simp [joinSep]
  | cons c F2 =>
      rw [List.map_cons, joinSep_append_singleton]
      rw [if_neg (by simp : ¬(("t." ++ c ++ " = s." ++ c) ::
        List.map (fun col => "t." ++ col ++ " = s." ++ col) F2 = []))]
      have hne : joinSep ", " (("t." ++ c ++ " = s." ++ c) ::
          List.map (fun col => "t." ++ col ++ " = s." ++ col) F2) ≠ "" := by
        apply joinSep_ne_empty
        have h1 : ("t." : String).length = 2 := rfl
        have h2 : (" = s." : String).length = 5 := rfl
        simp only [String.length_append]
        omega
      rw [if_neg hne]

theorem insert_values_renders (all_columns : List String) :
    insert_values all_columns =
      joinSep ", " ((all_columns.map (fun c =>
        if c ∈ columns_to_exclude then SourceExpr.currentTime
        else SourceExpr.fromSource c)).map renderSourceExpr) := by
  unfold insert_values
  congr 1
  rw [List.map_map]
  apply List.map_congr_left
  intro c _
  by_cases hc : c ∈ columns_to_exclude <;> simp [hc, renderSourceExpr, Function.comp]

/-- C3: a save executes exactly one merge, and that merge statement is
precisely the rendering of the spec's branch list — on primary-key match
with `is_delete` true a delete, on match with `is_delete` false an update of
every non-primary-key, non-system-timestamp column plus `UpdatedAt` from the
current server time, on no match with `is_delete` false an insert of all
columns with the current server time for both `CreatedAt` and `UpdatedAt`,
and no branch (a no-op) for the unmatched-delete case. -/
theorem C3_single_merge_with_spec_branches :
    ∀ (table_name values_clause columns : String) (now : Int)
      (primary_keys all_columns : List String),
      (∀ temp_view : String,
        merge_sql table_name temp_view primary_keys all_columns =
          renderMergeStatement table_name temp_view (on_clause primary_keys)
            (specMergeBranches primary_keys all_columns)) ∧
      MergeBranch.notMatchedDelete ∉ specMergeBranches primary_keys all_columns ∧
      (save_statements table_name now values_clause columns primary_keys
          all_columns).filter isMergeStmt =
        [SqlStmt.mergeInto (merge_sql table_name (temp_view_name table_name now)
          primary_keys all_columns)] := by
  intro table_name values_clause columns now primary_keys all_columns
  refine ⟨?_, ?_, ?_⟩
  · intro temp_view
    unfold renderMergeStatement specMergeBranches
    simp only [List.map_cons, List.map_nil, String.join, List.foldl, renderBranch]
    rw [← update_set_renders, ← insert_values_renders]
    simp only [merge_sql, insert_columns, string_empty_append, String.append_assoc]
  · intro hmem
    simp [specMergeBranches] at hmem
  · rfl

theorem string_data_mk (l : List Char) : (String.mk l).data = l := rfl

/-- C9: the temporary view name is `temp_` + the dot-mangled table name + the
save's epoch second, so two saves at the same instant on different tables of
the same catalog and schema (table names contain no dot) always get distinct
temporary-source names. -/
theorem C9_temp_view_names_distinct (c s n1 n2 : String) (now : Int)
    (hne : n1 ≠ n2) (h1 : '.' ∉ n1.data) (h2 : '.' ∉ n2.data) :
    temp_view_name (c ++ "." ++ s ++ "." ++ n1) now ≠
      temp_view_name (c ++ "." ++ s ++ "." ++ n2) now := by
  intro h
  apply hne
  have hd := congrArg String.data h
  have hdot : ("." : String).data = ['.'] := rfl
  have hmap1 : List.map (fun ch => if ch = '.' then '_' else ch) n1.data = n1.data := by
    have hpt : ∀ a ∈ n1.data, (if a = '.' then '_' else a) = id a := by
      intro a ha
      by_cases hc : a = '.'
      · exact absurd (hc ▸ ha) h1
      · simp [hc]
    rw [List.map_congr_left hpt, List.map_id]
  have hmap2 : List.map (fun ch => if ch = '.' then '_' else ch) n2.data = n2.data := by
    have hpt : ∀ a ∈ n2.data, (if a = '.' then '_' else a) = id a := by
      intro a ha
      by_cases hc : a = '.'
      · exact absurd (hc ▸ ha) h2
      · simp [hc]
    rw [List.map_congr_left hpt, List.map_id]
  simp only [temp_view_name, dotToUnderscore, String.data_append, string_data_mk,
    hdot, List.map_append, List.map_cons, List.map_nil, hmap1, hmap2,
    List.append_assoc, List.cons_append, List.nil_append] at hd
  simp only [if_true, List.cons.injEq, true_and] at hd
  have hd2 := List.append_cancel_left hd
  simp only [List.cons.injEq, true_and] at hd2
  have hd3 := List.append_cancel_left hd2
  simp only [List.cons.injEq, true_and] at hd3
  have hlen : n1.data.length = n2.data.length := by
    have hl := congrArg List.length hd3
    simp only [List.length_append, List.length_cons] at hl
    omega
  have hdata := List.append_inj_left hd3 hlen
  calc n1 = String.mk n1.data := rfl
    _ = String.mk n2.data := by rw [hdata]
    _ = n2 := rfl

/-- C9 witness: concurrent saves in the same second on tables `users` and
`orders` of catalog `main`, schema `app`, get different view names. -/
theorem C9_temp_view_names_distinct_witness :
    temp_view_name ("main" ++ "." ++ "app" ++ "." ++ "users") 1700000000 ≠
      temp_view_name ("main" ++ "." ++ "app" ++ "." ++ "orders") 1700000000 :=
  C9_temp_view_names_distinct "main" "app" "users" "orders" 1700000000
    (by decide) (by decide) (by decide)

/-- C7: the primary-key lookup returns the empty set — not an error — when
the constraint query finds no rows, and the main loop reacts by disabling
editing for that one table only (rendering its pk-missing message), while
every other table still renders exactly from its own metadata and its own
load result. -/
theorem C7_missing_pk_disables_single_table :
    get_primary_key [] = [] ∧
    ∀ (tables : List String) (constraintsOf : String → List String)
      (loadOf : String → Except String (List (String × Col))) (i : Nat) (t : String),
      tables[i]? = some t → constraintsOf t = [] →
      (main_render tables constraintsOf loadOf)[i]? =
        some (TableRender.pkMissing
          ("No primary key found for table " ++ t ++ ". Editing is disabled.")) ∧
      ∀ (j : Nat) (u : String), tables[j]? = some u →
        (main_render tables constraintsOf loadOf)[j]? =
          some (render_table (constraintsOf u) (loadOf u) u) := by
  refine ⟨rfl, ?_⟩
  intro tables constraintsOf loadOf i t hti hpk
  have hmap : ∀ (j : Nat), (main_render tables constraintsOf loadOf)[j]? =
      Option.map (fun t => render_table (constraintsOf t) (loadOf t) t) tables[j]? := by
    intro j
    unfold main_render
    exact List.getElem?_map _ tables j
  constructor
  · rw [hmap i, hti]
    simp [render_table, get_primary_key, hpk]
  · intro j u hju
    rw [hmap j, hju]
    rfl

/-- C7 witness: of two tables, the one without a primary-key constraint
degrades to the pk-missing message while the other renders editable. -/
theorem C7_missing_pk_disables_single_table_witness :
    (main_render ["a", "b"] (fun t => if t = "a" then [] else ["id"])
        (fun _ => Except.ok []))[0]? =
      some (TableRender.pkMissing
        "No primary key found for table a. Editing is disabled.") ∧
    (main_render ["a", "b"] (fun t => if t = "a" then [] else ["id"])
        (fun _ => Except.ok []))[1]? =
      some (TableRender.editable ["id"] []) := by
  have h := C7_missing_pk_disables_single_table.2 ["a", "b"]
    (fun t => if t = "a" then [] else ["id"]) (fun _ => Except.ok []) 0 "a"
    (by decide) (by decide)
  exact ⟨h.1.trans (by decide), (h.2 1 "b" (by decide)).trans (by decide)⟩

/-- C8: evidence for the divergence — at a concrete failing merge the save
handler reports the error with the underlying message and leaves the
table's data in session state untouched, but it also clears the
unsaved-changes flag to `false` (because `save_changes` swallows the
exception, the unconditional reset at src/app.py:213 still runs), contrary
to the claim that the record of unsaved changes is left untouched. -/
theorem C8_failed_save_clears_changes_flag :
    handle_save "main.app.users"
        (TableSession.mk [[("id", Scalar.i 1), ("name", Scalar.s "A")]] true)
        [[("id", Scalar.i 1), ("name", Scalar.s "B")]]
        ["id"] (Except.error "MERGE failed: TABLE_OR_VIEW_NOT_FOUND") =
      (TableSession.mk [[("id", Scalar.i 1), ("name", Scalar.s "A")]] false,
       [UiMsg.errorMsg "Error saving changes: MERGE failed: TABLE_OR_VIEW_NOT_FOUND"]) := by
  decide

theorem natLit_foldl (n : Nat) :
    (natLit n).data.foldl (fun a c => a * 10 + (c.toNat - 48)) 0 = n := by
  by_cases h : n = 0
  · subst h; decide
  · simp only [natLit, if_neg h, string_data_mk]
    exact natLitAux_foldl n n (le_refl n)

theorem fracDigitsAux_length (w r : Nat) : (fracDigitsAux w r).length = w := by
  induction w generalizing r with
  | zero => rfl
  | succ w ih => simp [fracDigitsAux, ih]

theorem fracDigitsAux_all_digits (w r : Nat) :
    ∀ c ∈ fracDigitsAux w r, c.isDigit = true := by
  induction w generalizing r with
  | zero => intro c hc; simp [fracDigitsAux] at hc
  | succ w ih =>
      intro c hc
      simp only [fracDigitsAux, List.mem_append, List.mem_singleton] at hc
      rcases hc with hc | hc
      · exact ih _ c hc
      · subst hc
        have h10 : r % 10 < 10 := Nat.mod_lt _ (by omega)
        interval_cases h : r % 10 <;> decide

theorem fracDigitsAux_foldl (w r : Nat) (h : r < 10 ^ w) :
    (fracDigitsAux w r).foldl (fun a c => a * 10 + (c.toNat - 48)) 0 = r := by
  induction w generalizing r with
  | zero =>
      have hr : r = 0 := by simpa using h
      subst hr; rfl
  | succ w ih =>
      have hdiv : r / 10 < 10 ^ w := by
        rw [Nat.div_lt_iff_lt_mul (by omega)]
        calc r < 10 ^ (w + 1) := h
          _ = 10 ^ w * 10 := by ring
      have hm : r % 10 < 10 := Nat.mod_lt _ (by omega)
      have hchar : (Char.ofNat (48 + r % 10)).toNat - 48 = r % 10 := by
        interval_cases h2 : r % 10 <;> decide
      calc (fracDigitsAux (w + 1) r).foldl (fun a c => a * 10 + (c.toNat - 48)) 0
          = (fracDigitsAux w (r / 10) ++ [Char.ofNat (48 + r % 10)]).foldl
              (fun a c => a * 10 + (c.toNat - 48)) 0 := by rw [fracDigitsAux]
        _ = (r / 10) * 10 + ((Char.ofNat (48 + r % 10)).toNat - 48) := by
              rw [foldl_digits_append, ih _ hdiv]
        _ = r := by rw [hchar]; omega

theorem isDigit_ne_dot {c : Char} (hc : c.isDigit = true) : c ≠ '.' := by
  intro h
  subst h
  exact absurd hc (by decide)

theorem splitDot_append (l r : List Char) (hl : '.' ∉ l) :
    splitDot (l ++ '.' :: r) = some (l, r) := by
  induction l with
  | nil => simp [splitDot]
  | cons c cs ih =>
      simp only [List.mem_cons, not_or] at hl
      simp [splitDot, Ne.symm hl.1, ih hl.2]

theorem parseDecLit_eq_unsigned (s : String) (c : Char) (cs : List Char)
    (hx : s.data = c :: cs) (hc : c ≠ Char.ofNat 45) :
    parseDecLit s = parseUnsignedDecLit s := by
  rcases s with ⟨d⟩
  have hd : d = c :: cs := hx
  subst hd
  simp only [parseDecLit, if_neg hc]

theorem nat_div_mod_div_pow (a e : Nat) :
    ((a / 10 ^ e : Nat) : Rat) + ((a % 10 ^ e : Nat) : Rat) / 10 ^ e =
      (a : Rat) / 10 ^ e := by
  have hne : ((10 : Rat) ^ e) ≠ 0 := by positivity
  field_simp
  have h1 : (a / 10 ^ e) * 10 ^ e + a % 10 ^ e = a := by
    rw [Nat.mul_comm]
    exact Nat.div_add_mod a (10 ^ e)
  exact_mod_cast h1

theorem parseUnsignedDecLit_eq (s : String) (ip fp : List Char)
    (hs : s.data = ip ++ '.' :: fp) (hipne : ip ≠ [])
    (hipd : ∀ c ∈ ip, c.isDigit = true) (hfpne : fp ≠ [])
    (hfpd : ∀ c ∈ fp, c.isDigit = true) :
    parseUnsignedDecLit s =
      some (((ip.foldl (fun a c => a * 10 + (c.toNat - 48)) 0 : Nat) : Rat) +
        ((fp.foldl (fun a c => a * 10 + (c.toNat - 48)) 0 : Nat) : Rat) /
          10 ^ fp.length) := by
  have hdot : '.' ∉ ip := fun hmem => isDigit_ne_dot (hipd _ hmem) rfl
  have h1 : ip.isEmpty = false := by
    cases ip with
    | nil => exact absurd rfl hipne
    | cons a l => rfl
  have h2 : fp.isEmpty = false := by
    cases fp with
    | nil => exact absurd rfl hfpne
    | cons a l => rfl
  have h3 : ip.all Char.isDigit = true := List.all_eq_true.mpr hipd
  have h4 : fp.all Char.isDigit = true := List.all_eq_true.mpr hfpd
  unfold parseUnsignedDecLit
  rw [hs, splitDot_append ip fp hdot]
  simp [h1, h2, h3, h4]

theorem unsignedBody_data (a e : Nat) :
    (natLit (a / 10 ^ e) ++ "." ++
      (if e = 0 then "0" else String.mk (fracDigitsAux e (a % 10 ^ e)))).data =
    (natLit (a / 10 ^ e)).data ++ '.' ::
      (if e = 0 then ['0'] else fracDigitsAux e (a % 10 ^ e)) := by
  have hdot : ("." : String).data = ['.'] := rfl
  have h0 : ("0" : String).data = ['0'] := rfl
  by_cases he : e = 0 <;>
    simp [he, String.data_append, hdot, h0, string_data_mk, List.append_assoc]

theorem parseUnsignedDecLit_body (a e : Nat) :
    parseUnsignedDecLit (natLit (a / 10 ^ e) ++ "." ++
      (if e = 0 then "0" else String.mk (fracDigitsAux e (a % 10 ^ e)))) =
      some ((a : Rat) / 10 ^ e) := by
  obtain ⟨hipne, hipd⟩ := natLit_data_spec (a / 10 ^ e)
  have hfpne : (if e = 0 then ['0'] else fracDigitsAux e (a % 10 ^ e)) ≠ [] := by
    by_cases he : e = 0
    · simp [he]
    · simp only [if_neg he]
      intro hnil
      have hlen := fracDigitsAux_length e (a % 10 ^ e)
      rw [hnil] at hlen
      exact he hlen.symm
  have hfpd : ∀ c ∈ (if e = 0 then ['0'] else fracDigitsAux e (a % 10 ^ e)),
      c.isDigit = true := by
    by_cases he : e = 0
    · simp only [if_pos he]
      decide
    · simp only [if_neg he]
      exact fracDigitsAux_all_digits e _
  rw [parseUnsignedDecLit_eq _ (natLit (a / 10 ^ e)).data
    (if e = 0 then ['0'] else fracDigitsAux e (a % 10 ^ e))
    (unsignedBody_data a e) hipne hipd hfpne hfpd]
  congr 1
  rw [natLit_foldl]
  by_cases he : e = 0
  · subst he
    simp [Nat.div_one]
  · simp only [if_neg he]
    rw [fracDigitsAux_foldl e _ (Nat.mod_lt _ (Nat.pow_pos (by norm_num))),
      fracDigitsAux_length]
    exact nat_div_mod_div_pow a e

theorem parseDecLit_pyStrFloat (m : Int) (e : Nat) :
    parseDecLit (pyStrFloat m e) = some (decValue m e) := by
  by_cases hm : m < 0
  · have hdata : (pyStrFloat m e).data =
        Char.ofNat 45 :: (natLit (m.natAbs / 10 ^ e) ++ "." ++
          (if e = 0 then "0" else String.mk (fracDigitsAux e (m.natAbs % 10 ^ e)))).data := by
      simp [pyStrFloat, if_pos hm, String.data_append]
    rcases hmk : pyStrFloat m e with ⟨d⟩
    have hd2 : d = Char.ofNat 45 :: (natLit (m.natAbs / 10 ^ e) ++ "." ++
        (if e = 0 then "0" else String.mk (fracDigitsAux e (m.natAbs % 10 ^ e)))).data := by
      rw [← hdata, hmk]
    simp only [parseDecLit, hd2, if_pos rfl, if_true]
    have heta : String.mk (natLit (m.natAbs / 10 ^ e) ++ "." ++
        (if e = 0 then "0" else String.mk (fracDigitsAux e (m.natAbs % 10 ^ e)))).data =
        natLit (m.natAbs / 10 ^ e) ++ "." ++
          (if e = 0 then "0" else String.mk (fracDigitsAux e (m.natAbs % 10 ^ e))) := rfl
    rw [heta, parseUnsignedDecLit_body]
    simp only [Option.map_some']
    congr 1
    unfold decValue
    have h2 : ((m.natAbs : Rat)) = -(m : Rat) := by
      rw [Int.cast_natAbs, abs_of_neg hm]
      push_cast
      ring
    rw [h2]
    ring
  · have hbodyeq : pyStrFloat m e = natLit (m.natAbs / 10 ^ e) ++ "." ++
        (if e = 0 then "0" else String.mk (fracDigitsAux e (m.natAbs % 10 ^ e))) := by
      simp [pyStrFloat, if_neg hm, string_empty_append]
    rw [hbodyeq]
    obtain ⟨hipne, hipd⟩ := natLit_data_spec (m.natAbs / 10 ^ e)
    obtain ⟨c, cs, hcons⟩ : ∃ c cs, (natLit (m.natAbs / 10 ^ e)).data = c :: cs := by
      cases hx : (natLit (m.natAbs / 10 ^ e)).data with
      | nil => exact absurd hx hipne
      | cons c cs => exact ⟨c, cs, rfl⟩
    have hc : c.isDigit = true := hipd c (by rw [hcons]; simp)
    rw [parseDecLit_eq_unsigned _ c
      (cs ++ '.' :: (if e = 0 then ['0'] else fracDigitsAux e (m.natAbs % 10 ^ e)))
      (by rw [unsignedBody_data, hcons]; rfl) (isDigit_ne_minus hc)]
    rw [parseUnsignedDecLit_body]
    congr 1
    unfold decValue
    have h2 : ((m.natAbs : Rat)) = (m : Rat) := by
      rw [Int.cast_natAbs, abs_of_nonneg (not_lt.mp hm)]
    rw [h2]

theorem pyStrFloat_no_quote (m : Int) (e : Nat) :
    ∀ ch ∈ (pyStrFloat m e).data, ch ≠ quoteChar := by
  intro ch hch
  simp only [pyStrFloat, String.data_append, List.mem_append] at hch
  rcases hch with ((h | h) | h) | h
  · by_cases hm : m < 0
    · rw [if_pos hm] at h
      have hc : ch = '-' := by simpa using h
      subst hc
      decide
    · rw [if_neg hm] at h
      simp at h
  · exact isDigit_ne_quote ((natLit_data_spec _).2 ch h)
  · have hc : ch = '.' := by simpa using h
    subst hc
    decide
  · by_cases he : e = 0
    · rw [if_pos he] at h
      have hc : ch = '0' := by simpa using h
      subst hc
      decide
    · rw [if_neg he] at h
      rw [string_data_mk] at h
      exact isDigit_ne_quote (fracDigitsAux_all_digits e _ ch h)

theorem pyStrFloat_head_ne_quote (m : Int) (e : Nat) :
    (pyStrFloat m e).data.head? ≠ some quoteChar := by
  intro hcontra
  have hmem : quoteChar ∈ (pyStrFloat m e).data := by
    cases hx : (pyStrFloat m e).data with
    | nil => rw [hx] at hcontra; simp at hcontra
    | cons a l =>
        rw [hx] at hcontra
        simp only [List.head?, Option.some_inj] at hcontra
        subst hcontra
        exact List.mem_cons_self _ _
  exact pyStrFloat_no_quote m e quoteChar hmem rfl

/-- C4: for every non-null string value, the formatter returns the value
single-quoted with every embedded single quote doubled and no other
character changed (so `O'Brien` formats to `'O''Brien'`), and formatting a
non-null boolean, integer or floating-point value and then parsing the
literal back through the store's type system yields the original value
(for a float cell, the decimal value it displays as). -/
theorem C4_format_value_escaping_and_roundtrip :
    (∀ t : String, format_value (Scalar.s t) "object" =
      String.mk [quoteChar] ++ escapeSpec t ++ String.mk [quoteChar]) ∧
    format_value (Scalar.s "O\x27Brien") "object" = "\x27O\x27\x27Brien\x27" ∧
    (∀ v : Bool, parseBoolLit (format_value (Scalar.b v) "bool") = some v) ∧
    (∀ n : Int, parseIntLit (format_value (Scalar.i n) "int64") = some n) ∧
    (∀ (m : Int) (e : Nat),
      parseDecLit (format_value (Scalar.f m e) "float64") = some (decValue m e)) := by
  refine ⟨?_, by decide, ?_, ?_, ?_⟩
  · intro t
    have hfv : format_value (Scalar.s t) "object" =
        String.mk [quoteChar] ++ escapeQuotes t ++ String.mk [quoteChar] := by
      simp [format_value, pyStr]
    rw [hfv, escapeQuotes_eq_escapeSpec]
  · intro v
    cases v <;> decide
  · intro n
    have hfv : format_value (Scalar.i n) "int64" = intLit n := by
      simp [format_value, pyStr]
    rw [hfv, parseIntLit_intLit]
  · intro m e
    have hfv : format_value (Scalar.f m e) "float64" = pyStrFloat m e := by
      simp [format_value, pyStr]
    rw [hfv, parseDecLit_pyStrFloat]

/-- C5 (amended): only for the declared dtypes `int64` and `float64` does
the formatter produce the canonical decimal form `str(value)` unquoted (its
first character is a digit or a minus sign, never a quote); under every
other declared dtype — in particular every other numeric width such as
`int32`, `int16`, `float32` or `uint64`, none of which is the dtype string
`bool`, `int64` or `float64` — a non-null numeric value falls through to
the string branch and is rendered as a single-quoted decimal literal. -/
theorem C5_numeric_dtype_rendering :
    (∀ n : Int, format_value (Scalar.i n) "int64" = intLit n) ∧
    (∀ n : Int, format_value (Scalar.i n) "float64" = intLit n) ∧
    (∀ (m : Int) (e : Nat), format_value (Scalar.f m e) "float64" = pyStrFloat m e) ∧
    (∀ n : Int, (format_value (Scalar.i n) "int64").data.head? ≠ some quoteChar) ∧
    (∀ (m : Int) (e : Nat),
      (format_value (Scalar.f m e) "float64").data.head? ≠ some quoteChar) ∧
    (∀ (n : Int) (dtype : String),
      dtype ≠ "bool" → dtype ≠ "int64" → dtype ≠ "float64" →
      format_value (Scalar.i n) dtype =
        String.mk [quoteChar] ++ intLit n ++ String.mk [quoteChar]) ∧
    (∀ (m : Int) (e : Nat) (dtype : String),
      dtype ≠ "bool" → dtype ≠ "int64" → dtype ≠ "float64" →
      format_value (Scalar.f m e) dtype =
        String.mk [quoteChar] ++ pyStrFloat m e ++ String.mk [quoteChar]) := by
  have h64 : ∀ n : Int, format_value (Scalar.i n) "int64" = intLit n := by
    intro n
    simp [format_value, pyStr]
  have hf64 : ∀ (m : Int) (e : Nat),
      format_value (Scalar.f m e) "float64" = pyStrFloat m e := by
    intro m e
    simp [format_value, pyStr]
  refine ⟨h64, ?_, hf64, ?_, ?_, ?_, ?_⟩
  · intro n
    simp [format_value, pyStr]
  · intro n
    rw [h64]
    exact intLit_head_ne_quote n
  · intro m e
    rw [hf64]
    exact pyStrFloat_head_ne_quote m e
  · intro n dtype hb hi hf
    have hesc := escapeQuotes_eq_self_of_no_quote (intLit n) (intLit_no_quote n)
    by_cases hobj : dtype = "object"
    · simp [format_value, pyStr, hb, hobj, hesc]
    · simp [format_value, pyStr, hb, hi, hf, hobj, hesc]
  · intro m e dtype hb hi hf
    have hesc := escapeQuotes_eq_self_of_no_quote (pyStrFloat m e) (pyStrFloat_no_quote m e)
    by_cases hobj : dtype = "object"
    · simp [format_value, pyStr, hb, hobj, hesc]
    · simp [format_value, pyStr, hb, hi, hf, hobj, hesc]

/-- C5 witness: the quoted fall-through applied at two concrete other-width
dtypes — the integer 5 under `int32` and the float cell 2.5 under
`float32`. -/
theorem C5_numeric_dtype_rendering_witness :
    format_value (Scalar.i 5) "int32" = "\x275\x27" ∧
    format_value (Scalar.f 25 1) "float32" = "\x272.5\x27" := by
  constructor
  · exact (C5_numeric_dtype_rendering.2.2.2.2.2.1 5 "int32"
      (by decide) (by decide) (by decide)).trans (by decide)
  · exact (C5_numeric_dtype_rendering.2.2.2.2.2.2 25 1 "float32"
      (by decide) (by decide) (by decide)).trans (by decide)
